import Mathlib

/-!
Shallow embedding of the screenshot-to-transcript reconstruction pipeline of
`backend/app/services/ocr_service.py` (class `WeChatOCRService`), together with
proofs about its speaker classification, message merging, multi-image assembly,
formatting, OCR-result parsing and error handling.

Modelling conventions:
* Python floats are embedded as rationals (`ℚ`); all geometric thresholds of the
  source are exact decimal literals, so no floating-point rounding is relevant
  to any statement proved here.
* A decoded PIL image is embedded as its dimensions plus a pixel map
  (`PImage`); `Image.crop` reads outside the canvas as black, as PIL does.
* The external collaborators (the Tencent OCR network call inside
  `process_image`, the LLM client of `_refine_conversation_with_llm`, and the
  regex pattern library used by `_is_ui_text` / `_is_time_stamp`, which the
  spec describes as an externally supplied, updatable pattern set) are
  parameters of the embedded functions; a raised exception of a collaborator is
  an `Except.error` value.
* Python truthiness of optional strings (`if chat_name:`, `x or y`) is embedded
  explicitly (`optTruthy`, `pyOrOpt`, `pyOrStr`).
-/

namespace EchoOCR

set_option maxRecDepth 1000000

attribute [local semireducible] Rat.mul Rat.inv Rat.add Rat.sub Rat.ofScientific

/-- Python `int()` truncation toward zero of a float, on rationals. -/
def pyTrunc (q : ℚ) : Int := if 0 ≤ q then Int.floor q else -(Int.floor (-q))

/-- Python truthiness of an `Optional[str]`: `None` and `""` are falsy. -/
def optTruthy : Option String → Bool
  | none => false
  | some s => !s.isEmpty

/-- Python `a or b` on two `Optional[str]` values. -/
def pyOrOpt (a b : Option String) : Option String := if optTruthy a then a else b

/-- Python `a or d` where `a : Optional[str]` and `d` is a string default. -/
def pyOrStr (a : Option String) (d : String) : String :=
  match a with
  | some s => if s.isEmpty then d else s
  | none => d

/-- Python `str.strip()`: drop leading and trailing whitespace. -/
def pyStrip (s : String) : String :=
  ⟨((s.data.dropWhile Char.isWhitespace).reverse.dropWhile Char.isWhitespace).reverse⟩

/-- `min` over a list of rationals as Python `min(...)` on a nonempty list;
the empty case is a caller-contract violation in the source (spec 4.1) and is
given the junk value 0. -/
def minListQ : List ℚ → ℚ
  | [] => 0
  | x :: xs => xs.foldl min x

/-- `max` over a list of rationals; empty case as in `minListQ`. -/
def maxListQ : List ℚ → ℚ
  | [] => 0
  | x :: xs => xs.foldl max x

/-- `TextBox` of the source: one OCR detection with its quadrilateral. -/
structure TextBox where
  text : String
  box : List (ℚ × ℚ)
  confidence : ℚ
deriving DecidableEq

/-- `TextBox.center_x`: `sum(p[0] for p in self.box) / 4`. -/
def TextBox.center_x (b : TextBox) : ℚ := (b.box.map Prod.fst).sum / 4

/-- `TextBox.center_y`: `sum(p[1] for p in self.box) / 4`. -/
def TextBox.center_y (b : TextBox) : ℚ := (b.box.map Prod.snd).sum / 4

/-- `TextBox.top_y`: `min(p[1] for p in self.box)`. -/
def TextBox.top_y (b : TextBox) : ℚ := minListQ (b.box.map Prod.snd)

/-- `TextBox.bottom_y`: `max(p[1] for p in self.box)`. -/
def TextBox.bottom_y (b : TextBox) : ℚ := maxListQ (b.box.map Prod.snd)

/-- `TextBox.left_x`: `min(p[0] for p in self.box)`. -/
def TextBox.left_x (b : TextBox) : ℚ := minListQ (b.box.map Prod.fst)

/-- `TextBox.right_x`: `max(p[0] for p in self.box)`. -/
def TextBox.right_x (b : TextBox) : ℚ := maxListQ (b.box.map Prod.fst)

/-- `ChatMessage` of the source. -/
structure ChatMessage where
  speaker : String
  text : String
  y_position : ℚ
deriving DecidableEq

instance : Inhabited ChatMessage := ⟨⟨"", "", 0⟩⟩

/-- `ImageOCRResult` of the source. -/
structure ImageOCRResult where
  image_index : Nat
  raw_texts : List String
  messages : List ChatMessage
deriving DecidableEq

/-- A decoded RGB image: dimensions plus pixel map (embeds a PIL image). -/
structure PImage where
  width : Nat
  height : Nat
  pixel : Nat → Nat → Nat × Nat × Nat

/-- Reading a pixel at integer coordinates; outside the canvas PIL's `crop`
yields black `(0,0,0)`. -/
def pixelAt (img : PImage) (x y : Int) : Nat × Nat × Nat :=
  if 0 ≤ x ∧ x < (img.width : Int) ∧ 0 ≤ y ∧ y < (img.height : Int) then
    img.pixel x.toNat y.toNat
  else (0, 0, 0)

/-- Python `x % 1.0` for the hue normalization of `colorsys` (result in `[0,1)`). -/
def pyMod1 (x : ℚ) : ℚ := x - (Int.floor x : ℚ)

/-- `colorsys.rgb_to_hsv` on rationals in `[0,1]`. -/
def rgbToHsv (r g b : ℚ) : ℚ × ℚ × ℚ :=
  let maxc := max r (max g b)
  let minc := min r (min g b)
  let v := maxc
  if minc = maxc then (0, 0, v)
  else
    let s := (maxc - minc) / maxc
    let rc := (maxc - r) / (maxc - minc)
    let gc := (maxc - g) / (maxc - minc)
    let bc := (maxc - b) / (maxc - minc)
    let h := if r = maxc then bc - gc else if g = maxc then 2 + rc - bc else 4 + gc - rc
    (pyMod1 (h / 6), s, v)

/-- The nested `sample_color` of `_get_bubble_color`: clamp the corner, crop a
`w × h` region, average its pixels with integer division, convert to HSV.
Returns `(R, G, B, H, S, V)` with `H` in degrees and `S`, `V` in percent. -/
def sampleColor (img : PImage) (x y : Int) (w h : Nat) : Option (Nat × Nat × Nat × ℚ × ℚ × ℚ) :=
  let x := max 0 (min x ((img.width : Int) - (w : Int)))
  let y := max 0 (min y ((img.height : Int) - (h : Int)))
  let pixels := ((List.range h).map (fun j => (List.range w).map (fun i =>
    pixelAt img (x + (i : Int)) (y + (j : Int))))).flatten
  if pixels.isEmpty then none
  else
    let n := pixels.length
    let avg_r := (pixels.map (fun p => p.1)).sum / n
    let avg_g := (pixels.map (fun p => p.2.1)).sum / n
    let avg_b := (pixels.map (fun p => p.2.2)).sum / n
    let hsv := rgbToHsv ((avg_r : ℚ) / 255) ((avg_g : ℚ) / 255) ((avg_b : ℚ) / 255)
    some (avg_r, avg_g, avg_b, hsv.1 * 360, hsv.2.1 * 100, hsv.2.2 * 100)

/-- `is_green` of `_get_bubble_color`: WeChat green band. -/
def is_green (h s v : ℚ) : Bool := decide (70 ≤ h ∧ h ≤ 150 ∧ 20 < s ∧ 40 < v)

/-- `is_white` of `_get_bubble_color`: white / light gray. -/
def is_white (s v : ℚ) : Bool := decide (s < 25 ∧ 75 < v)

/-- The three sample rectangles of `_get_bubble_color`: above, to the left of,
and to the right of the text box, as `(x, y, width, height)`. -/
def bubbleSamplePoints (box : TextBox) : List (Int × Int × Nat × Nat) :=
  [ (pyTrunc box.left_x + 5, pyTrunc box.top_y - 15, 20, 10),
    (pyTrunc box.left_x - 25, pyTrunc box.center_y - 10, 20, 20),
    (pyTrunc box.right_x + 5, pyTrunc box.center_y - 10, 20, 20) ]

/-- Vote accumulator of the sampling loop of `_get_bubble_color`. -/
structure VoteState where
  green_count : Nat
  white_count : Nat
  last_color : Nat × Nat × Nat
deriving DecidableEq

/-- One iteration of the sampling loop of `_get_bubble_color`. -/
def voteStep (img : PImage) (st : VoteState) (p : Int × Int × Nat × Nat) : VoteState :=
  match sampleColor img p.1 p.2.1 p.2.2.1 p.2.2.2 with
  | none => st
  | some (r, g, b, hue, sat, val) =>
    if is_green hue sat val then
      { green_count := st.green_count + 1, white_count := st.white_count, last_color := (r, g, b) }
    else if is_white sat val then
      { green_count := st.green_count, white_count := st.white_count + 1, last_color := (r, g, b) }
    else
      { green_count := st.green_count, white_count := st.white_count, last_color := (r, g, b) }

/-- `_get_bubble_color`: sample the three patches, vote, and decide
`"我"` (green majority of the vote), `"对方"` (white majority of the vote) or
`""` (undetermined). -/
def getBubbleColor (img : PImage) (box : TextBox) : String × (Nat × Nat × Nat) :=
  let st := (bubbleSamplePoints box).foldl (voteStep img) ⟨0, 0, (0, 0, 0)⟩
  if st.green_count > st.white_count ∧ st.green_count ≥ 1 then ("我", st.last_color)
  else if st.white_count > st.green_count ∧ st.white_count ≥ 1 then ("对方", st.last_color)
  else ("", st.last_color)

/-- `_classify_speaker_by_color`. -/
def classifySpeakerByColor (img : PImage) (box : TextBox) (chat_name : Option String) :
    String × String :=
  let sc := getBubbleColor img box
  let color_info := "RGB(" ++ toString sc.2.1 ++ ", " ++ toString sc.2.2.1 ++ ", "
    ++ toString sc.2.2.2 ++ ")"
  if sc.1 = "我" then ("我", "绿色气泡 " ++ color_info)
  else if sc.1 = "对方" then (pyOrStr chat_name "对方", "白色气泡 " ++ color_info)
  else ("", "未识别 " ++ color_info)

/-- `_classify_speaker`: position-based fallback tier. -/
def classifySpeaker (box : TextBox) (image_width : ℚ) (chat_name : Option String) : String :=
  let relative_left := box.left_x / image_width
  let relative_right := box.right_x / image_width
  if relative_right > 0.75 ∧ relative_left > 0.35 then "我"
  else if relative_left < 0.25 ∧ relative_right < 0.65 then pyOrStr chat_name "对方"
  else if relative_right - relative_left > 0.3 then
    if relative_left < 0.20 then pyOrStr chat_name "对方"
    else if relative_left > 0.30 then "我"
    else ""
  else ""

/-- `_is_in_status_bar`: top 5% of the image. -/
def isInStatusBar (box : TextBox) (image_height : ℚ) : Bool :=
  decide (box.top_y < image_height * 0.05)

/-- `_is_in_input_area`: bottom 8% of the image. -/
def isInInputArea (box : TextBox) (image_height : ℚ) : Bool :=
  decide (box.bottom_y > image_height * 0.92)

/-- `_extract_chat_name`, parametrized by the `_is_ui_text` pattern predicate. -/
def extractChatName (isUiTextF : String → Bool) (boxes : List TextBox)
    (image_width image_height : ℚ) : Option String :=
  if boxes.isEmpty then none
  else
    let top_region_start := image_height * 0.03
    let top_region_end := image_height * 0.10
    let top_boxes := boxes.filter (fun b =>
      decide (top_region_start < b.center_y ∧ b.center_y < top_region_end))
    let top_boxes := if top_boxes.isEmpty then
        boxes.filter (fun b => decide (b.center_y < image_height * 0.12))
      else top_boxes
    if top_boxes.isEmpty then none
    else
      let cx := image_width / 2
      let candidates := top_boxes.filterMap (fun b =>
        let text := pyStrip b.text
        if isUiTextF text then none
        else if text.length < 1 ∨ text.length > 12 then none
        else if |b.center_x - cx| > image_width * 0.25 then none
        else some (text, |b.center_x - cx|))
      match candidates.insertionSort (fun p q => p.2 ≤ q.2) with
      | [] => none
      | c :: _ => some c.1

/-- The comparison key of `messages.sort(key=lambda m: m.y_position)`. -/
def msgLe (a b : ChatMessage) : Prop := a.y_position ≤ b.y_position

instance : DecidableRel msgLe := fun a b => inferInstanceAs (Decidable (a.y_position ≤ b.y_position))

instance : IsTotal ChatMessage msgLe := ⟨fun a b => le_total a.y_position b.y_position⟩

instance : IsTrans ChatMessage msgLe := ⟨fun _ _ _ h1 h2 => le_trans h1 h2⟩

/-- Python's stable `sorted(messages, key=lambda m: m.y_position)`. -/
def sortByY (l : List ChatMessage) : List ChatMessage := l.insertionSort msgLe

/-- The walk of `_merge_consecutive_messages` over the sorted tail: `current`
is the message being accumulated, `last_y` the `y_position` of the most
recently visited box (updated on every iteration). -/
def mergeLoop (t : ℚ) (current : ChatMessage) (last_y : ℚ) :
    List ChatMessage → List ChatMessage
  | [] => [current]
  | msg :: rest =>
    if msg.speaker = current.speaker ∧ msg.y_position - last_y < t then
      mergeLoop t { current with text := current.text ++ msg.text } msg.y_position rest
    else
      current :: mergeLoop t msg msg.y_position rest

/-- `_merge_consecutive_messages` (the default `y_threshold` of the source
is 120; callers here pass it explicitly). -/
def mergeConsecutiveMessages (messages : List ChatMessage) (y_threshold : ℚ) :
    List ChatMessage :=
  match sortByY messages with
  | [] => []
  | first :: rest => mergeLoop y_threshold first first.y_position rest

/-- `_format_conversation`: render each message as `"{speaker}：{text}"`;
a non-`"我"` speaker is replaced by the literal `"对方"` when a chat name is
truthy. -/
def formatConversation (messages : List ChatMessage) (chat_name : Option String) : String :=
  String.intercalate "\n" (messages.map (fun msg =>
    let speaker := if msg.speaker ≠ "我" ∧ optTruthy chat_name = true then "对方" else msg.speaker
    speaker ++ "：" ++ msg.text))

/-- `_format_raw_ocr_for_llm`: the serialized per-image dump handed to the
refinement collaborator. -/
def formatRawOcrForLLM (image_results : List ImageOCRResult) : String :=
  let output := image_results.foldr (fun result acc =>
    ("=== 图片 " ++ toString (result.image_index + 1) ++ " ===")
      :: ("原始识别文本（共" ++ toString result.raw_texts.length ++ "个）:")
      :: ((result.raw_texts.enum.map (fun p => "  " ++ toString (p.1 + 1) ++ ". " ++ p.2))
      ++ [""]
      ++ (("提取的对话消息（共" ++ toString result.messages.length ++ "条）:")
      :: ((result.messages.map (fun msg => "  [" ++ msg.speaker ++ "] " ++ msg.text))
      ++ [""]
      ++ acc)))) []
  String.intercalate "\n" output

/-- `ItemPolygon` of a Tencent OCR detection. -/
structure ItemPolygonT where
  X : ℚ
  Y : ℚ
  Width : ℚ
  Height : ℚ
deriving DecidableEq

/-- One entry of `response.TextDetections`; every field of the SDK model is
optional (absent in the wire format means `None`). -/
structure Detection where
  DetectedText : Option String
  Confidence : Option ℚ
  Polygon : Option (List (ℚ × ℚ))
  ItemPolygon : Option ItemPolygonT
deriving DecidableEq

/-- `GeneralBasicOCRResponse`, reduced to the only field the adapter reads. -/
structure OCRResponse where
  TextDetections : Option (List Detection)
deriving DecidableEq

/-- Python `not text or not text.strip()` on the optional detected text. -/
def textFalsy : Option String → Bool
  | none => true
  | some s => s.isEmpty || (pyStrip s).isEmpty

/-- The detection loop of `_parse_tencent_ocr_result`. A `None` confidence
makes `detection.Confidence / 100.0` raise a `TypeError`, which propagates out
of the adapter; the raised exception is embedded as `Except.error`. -/
def parseDetections : List Detection → Except String (List TextBox)
  | [] => .ok []
  | d :: rest =>
    if textFalsy d.DetectedText then parseDetections rest
    else
      match d.Confidence with
      | none => .error "TypeError: unsupported operand type for /: NoneType and float"
      | some conf =>
        let confidence := conf / 100
        match d.Polygon with
        | some (p :: ps) =>
          (parseDetections rest).map (fun bs =>
            ⟨pyStrip (d.DetectedText.getD ""), p :: ps, confidence⟩ :: bs)
        | _ =>
          match d.ItemPolygon with
          | some ip =>
            (parseDetections rest).map (fun bs =>
              ⟨pyStrip (d.DetectedText.getD ""),
                [(ip.X, ip.Y), (ip.X + ip.Width, ip.Y),
                 (ip.X + ip.Width, ip.Y + ip.Height), (ip.X, ip.Y + ip.Height)],
                confidence⟩ :: bs)
          | none => parseDetections rest

/-- `_parse_tencent_ocr_result`: `if not response.TextDetections: return []`,
then the detection loop. -/
def parseTencentOcrResult (response : OCRResponse) : Except String (List TextBox) :=
  match response.TextDetections with
  | none => .ok []
  | some [] => .ok []
  | some dets => parseDetections dets

/-- The result of `process_image` for one decodable input: text boxes (already
scaled back to original pixel space), original width and height, and the
decoded image. The Tencent OCR network call and PIL decoding are external;
a failing image is an `Except.error` at the call sites below. -/
structure ImgData where
  boxes : List TextBox
  width : ℚ
  height : ℚ
  image : PImage

/-- `extract_chat_from_image` after `process_image` returned `data`,
parametrized by the `_is_ui_text` / `_is_time_stamp` pattern predicates. -/
def extractChatFromImage (isUiTextF isTimeStampF : String → Bool) (data : ImgData)
    (default_chat_name : Option String) : List ChatMessage × Option String :=
  if data.boxes.isEmpty then ([], none)
  else
    let chat_name := pyOrOpt (extractChatName isUiTextF data.boxes data.width data.height)
      default_chat_name
    let messages := data.boxes.filterMap (fun box =>
      if isInStatusBar box data.height then none
      else if isInInputArea box data.height then none
      else if isTimeStampF box.text then none
      else if isUiTextF box.text then none
      else
        let speaker0 := (classifySpeakerByColor data.image box chat_name).1
        let speaker := if speaker0.isEmpty then classifySpeaker box data.width chat_name
          else speaker0
        if speaker.isEmpty then none
        else some ⟨speaker, pyStrip box.text, box.center_y⟩)
    (sortByY messages, chat_name)

/-- The per-box filtering and classification loop of
`process_multiple_images_async` (steps 1–7 of the source), with
`current_chat_name = chat_name or detected_chat_name` already resolved. -/
def buildImageMessages (isUiTextF isTimeStampF : String → Bool) (data : ImgData)
    (current_chat_name : Option String) : List ChatMessage :=
  data.boxes.filterMap (fun box =>
    if isInStatusBar box data.height then none
    else if isInInputArea box data.height then none
    else if isTimeStampF box.text then none
    else if isUiTextF box.text then none
    else if optTruthy current_chat_name = true ∧ pyStrip box.text = current_chat_name.getD ""
        ∧ box.center_y / data.height < 0.15 then none
    else
      let speaker0 := (classifySpeakerByColor data.image box current_chat_name).1
      let speaker := if speaker0.isEmpty then classifySpeaker box data.width current_chat_name
        else speaker0
      if speaker.isEmpty then none
      else some ⟨speaker, pyStrip box.text, box.center_y⟩)

/-- The per-image loop of `process_multiple_images_async`: a failing image
(`except Exception: continue`) contributes nothing; a successful one appends
one `ImageOCRResult` and may resolve the detected chat name. -/
def processImagesLoop (isUiTextF isTimeStampF : String → Bool) :
    Nat → Option String → List (Except String ImgData) → List ImageOCRResult × Option String
  | _, detected, [] => ([], detected)
  | i, detected, .error _ :: rest =>
    processImagesLoop isUiTextF isTimeStampF (i + 1) detected rest
  | i, detected, .ok data :: rest =>
    let chat_name := extractChatName isUiTextF data.boxes data.width data.height
    let detected2 := if optTruthy chat_name = true ∧ optTruthy detected = false then chat_name
      else detected
    let current_chat_name := pyOrOpt chat_name detected2
    let messages := buildImageMessages isUiTextF isTimeStampF data current_chat_name
    let sortedMsgs := sortByY messages
    let merged := mergeConsecutiveMessages sortedMsgs 120
    let tailResult := processImagesLoop isUiTextF isTimeStampF (i + 1) detected2 rest
    (⟨i, data.boxes.map (fun b => b.text), merged⟩ :: tailResult.1, tailResult.2)

/-- The parsed JSON result of the refinement collaborator
(`parse_llm_json(response)` with its two `result.get(...)` reads). -/
structure LLMParsed where
  other_name : Option String
  conversation : Option String

/-- The refinement collaborator: the composite of `llm_client.generate` and
`parse_llm_json`, taking the serialized dump and the detected chat name; any
raised error (network, timeout, API, parse) is an `Except.error`. -/
def LLMCollab : Type := String → Option String → Except String LLMParsed

/-- `_refine_conversation_with_llm`: on success, return the parsed
conversation and name; on ANY caught error, return the raw serialized dump and
the detected name unchanged (the `except` branches of the source). -/
def refineConversationWithLLM (llm : LLMCollab) (raw_ocr_text : String)
    (detected_chat_name : Option String) : String × Option String :=
  match llm raw_ocr_text detected_chat_name with
  | .ok result =>
    let other_name := result.other_name.getD (pyOrStr detected_chat_name "对方")
    let conversation := result.conversation.getD ""
    (conversation, some other_name)
  | .error _ => (raw_ocr_text, detected_chat_name)

/-- The offsetting loop of the heuristic branch: image at position `i` (among
the successfully processed results) has `i * 100000` added to every message's
`y_position`, and the lists are concatenated. -/
def offsetMessages : Nat → List (List ChatMessage) → List ChatMessage
  | _, [] => []
  | i, msgs :: rest =>
    msgs.map (fun m => { m with y_position := m.y_position + (i : ℚ) * 100000 })
      ++ offsetMessages (i + 1) rest

/-- The heuristic multi-image assembler: offset per image position, then
globally sort by vertical key (`all_messages.sort(key=lambda m: m.y_position)`). -/
def assembleHeuristic (per_image : List (List ChatMessage)) : List ChatMessage :=
  sortByY (offsetMessages 0 per_image)

/-- `process_multiple_images_async`, with the per-image `process_image`
outcomes and the refinement collaborator as parameters. -/
def processMultipleImagesAsync (isUiTextF isTimeStampF : String → Bool) (llm : LLMCollab)
    (images : List (Except String ImgData)) (use_llm_refine : Bool) : String × Option String :=
  let r := processImagesLoop isUiTextF isTimeStampF 0 none images
  let image_results := r.1
  let detected_chat_name := r.2
  if image_results.isEmpty then ("", none)
  else
    let raw_ocr_text := formatRawOcrForLLM image_results
    if use_llm_refine then
      refineConversationWithLLM llm raw_ocr_text detected_chat_name
    else
      let all_messages := assembleHeuristic (image_results.map (fun ir => ir.messages))
      let merged_messages := mergeConsecutiveMessages all_messages 120
      (formatConversation merged_messages detected_chat_name, detected_chat_name)

/-- The per-image loop of the synchronous `process_multiple_images`: offsets
use the ORIGINAL image index (failed images leave gaps), and the chat name
detected so far is passed to `extract_chat_from_image` as default. -/
def processImagesLoopSync (isUiTextF isTimeStampF : String → Bool) :
    Nat → Option String → List (Except String ImgData) → List ChatMessage × Option String
  | _, detected, [] => ([], detected)
  | i, detected, .error _ :: rest =>
    processImagesLoopSync isUiTextF isTimeStampF (i + 1) detected rest
  | i, detected, .ok data :: rest =>
    let er := extractChatFromImage isUiTextF isTimeStampF data detected
    let chat_name := er.2
    let detected2 := if optTruthy chat_name = true ∧ optTruthy detected = false then chat_name
      else detected
    let offsetMsgs := er.1.map (fun m => { m with y_position := m.y_position + (i : ℚ) * 100000 })
    let tailResult := processImagesLoopSync isUiTextF isTimeStampF (i + 1) detected2 rest
    (offsetMsgs ++ tailResult.1, tailResult.2)

/-- `process_multiple_images` (synchronous variant, no refinement). -/
def processMultipleImages (isUiTextF isTimeStampF : String → Bool)
    (images : List (Except String ImgData)) : String × Option String :=
  let r := processImagesLoopSync isUiTextF isTimeStampF 0 none images
  let all_messages := sortByY r.1
  let merged_messages := mergeConsecutiveMessages all_messages 120
  (formatConversation merged_messages r.2, r.2)

/-! ### Specification-side definitions

The definitions below follow the wording of the spec and of the claims, for
comparison with the embedded source functions above, plus concrete fixtures
used by witnesses and counterexamples. -/

/-- Concatenation of the texts of a message list, in order, with no
separator. -/
def concatTexts (l : List ChatMessage) : String :=
  l.foldr (fun m acc => m.text ++ acc) ""

/-- Chunk splitting following the merger claim, relative to the immediately
preceding entry `prev`: the next entry is fused into the current chunk exactly
when its speaker equals `prev`'s speaker and its vertical gap from `prev` is
below the threshold; otherwise the current chunk ends and a new one begins.
Returns the remaining entries of the current chunk and the later chunks. -/
def chunkSplit (t : ℚ) (prev : ChatMessage) :
    List ChatMessage → List ChatMessage × List (ChatMessage × List ChatMessage)
  | [] => ([], [])
  | m2 :: rest =>
    let s := chunkSplit t m2 rest
    if m2.speaker = prev.speaker ∧ m2.y_position - prev.y_position < t then
      (m2 :: s.1, s.2)
    else
      ([], (m2, s.1) :: s.2)

/-- Chunking of a message list following the merger claim: each chunk is its
first entry paired with the entries fused after it. -/
def groupChunks (t : ℚ) : List ChatMessage → List (ChatMessage × List ChatMessage)
  | [] => []
  | m :: rest => (m, (chunkSplit t m rest).1) :: (chunkSplit t m rest).2

/-- Fusing one chunk into a single message: the speaker and vertical key of
the first entry, the texts concatenated with no separator. -/
def fuseChunk (c : ChatMessage × List ChatMessage) : ChatMessage :=
  ⟨c.1.speaker, c.1.text ++ concatTexts c.2, c.1.y_position⟩

/-- Two adjacent messages that the merger would NOT fuse: different speakers,
or vertical gap at least the threshold. -/
def noFuseRel (t : ℚ) (a b : ChatMessage) : Prop :=
  ¬(b.speaker = a.speaker ∧ b.y_position - a.y_position < t)

instance (t : ℚ) : DecidableRel (noFuseRel t) := fun _ _ =>
  inferInstanceAs (Decidable (¬ _))

/-- Whether one sample rectangle of `_get_bubble_color` yields a green vote. -/
def sampleIsGreen (img : PImage) (p : Int × Int × Nat × Nat) : Bool :=
  match sampleColor img p.1 p.2.1 p.2.2.1 p.2.2.2 with
  | none => false
  | some s => is_green s.2.2.2.1 s.2.2.2.2.1 s.2.2.2.2.2

/-- Whether one sample rectangle yields a white vote (the `elif` of the
source: white is only counted when the sample is not green). -/
def sampleIsWhite (img : PImage) (p : Int × Int × Nat × Nat) : Bool :=
  match sampleColor img p.1 p.2.1 p.2.2.1 p.2.2.2 with
  | none => false
  | some s => !is_green s.2.2.2.1 s.2.2.2.2.1 s.2.2.2.2.2 && is_white s.2.2.2.2.1 s.2.2.2.2.2

/-- Number of green votes across the three sample rectangles of a box. -/
def greenVotes (img : PImage) (box : TextBox) : Nat :=
  ((bubbleSamplePoints box).filter (sampleIsGreen img)).length

/-- Number of white votes across the three sample rectangles of a box. -/
def whiteVotes (img : PImage) (box : TextBox) : Nat :=
  ((bubbleSamplePoints box).filter (sampleIsWhite img)).length

/-! ### Concrete fixtures -/

/-- A 400×400 image uniformly of the WeChat bubble green (149, 236, 105). -/
def greenImg : PImage := ⟨400, 400, fun _ _ => (149, 236, 105)⟩

/-- A 400×400 image: bubble green above row 198, mid gray (128, 128, 128)
below — gray is neither green (saturation 0) nor white (value ≈ 50). -/
def mixImg : PImage := ⟨400, 400, fun _ y => if y < 198 then (149, 236, 105) else (128, 128, 128)⟩

/-- A 1000×1000 all-black image: every color sample is neither green nor
white, so the color tier is undetermined on every box. -/
def blackImg : PImage := ⟨1000, 1000, fun _ _ => (0, 0, 0)⟩

/-- A right-anchored text box (`你好`), used for the refinement-fallback and
color-vote fixtures. -/
def cbox : TextBox := ⟨"你好", [(300, 200), (380, 200), (380, 220), (300, 220)], 9/10⟩

/-- A refinement collaborator that raises on every call. -/
def llmFail : LLMCollab := fun _ _ => .error "network error"

/-- A one-image batch whose single box is green-right-anchored `你好`. -/
def c1imgs : List (Except String ImgData) := [.ok ⟨[cbox], 400, 400, greenImg⟩]

/-- A right-anchored box on the black image: relative edges 0.4 and 0.8. -/
def c4box : TextBox := ⟨"你好", [(400, 480), (800, 480), (800, 520), (400, 520)], 9/10⟩

/-- Image data for the position-fallback witness. -/
def c4data : ImgData := ⟨[c4box], 1000, 1000, blackImg⟩

/-- Image data that decodes but contains no text boxes at all. -/
def noBoxData : ImgData := ⟨[], 100, 100, ⟨100, 100, fun _ _ => (255, 255, 255)⟩⟩

/-! ### Helper lemmas about sorting and merging -/

theorem sortByY_sorted (l : List ChatMessage) : List.Sorted msgLe (sortByY l) :=
  List.sorted_insertionSort msgLe l

theorem sortByY_eq_of_sorted {l : List ChatMessage} (h : List.Sorted msgLe l) :
    sortByY l = l :=
  h.insertionSort_eq

theorem mergeLoop_eq_chunks (t : ℚ) (l : List ChatMessage) : ∀ (cur prev : ChatMessage),
    cur.speaker = prev.speaker →
    mergeLoop t cur prev.y_position l =
      (⟨cur.speaker, cur.text ++ concatTexts (chunkSplit t prev l).1, cur.y_position⟩ : ChatMessage)
        :: (chunkSplit t prev l).2.map fuseChunk := by
  induction l with
  | nil =>
    intro cur prev hsp
    simp [mergeLoop, chunkSplit, concatTexts, String.append_empty, ← hsp]
  | cons m2 rest ih =>
    intro cur prev hsp
    by_cases hc : m2.speaker = prev.speaker ∧ m2.y_position - prev.y_position < t
    · have hc2 : m2.speaker = cur.speaker ∧ m2.y_position - prev.y_position < t :=
        ⟨hc.1.trans hsp.symm, hc.2⟩
      have hstep : mergeLoop t cur prev.y_position (m2 :: rest) =
          mergeLoop t { cur with text := cur.text ++ m2.text } m2.y_position rest := by
        simp [mergeLoop, hc2]
      rw [hstep, ih { cur with text := cur.text ++ m2.text } m2 hc2.1.symm]
      simp [chunkSplit, hc, concatTexts, String.append_assoc]
    · have hc2 : ¬(m2.speaker = cur.speaker ∧ m2.y_position - prev.y_position < t) := by
        rw [hsp]; exact hc
      have hstep : mergeLoop t cur prev.y_position (m2 :: rest) =
          cur :: mergeLoop t m2 m2.y_position rest := by
        simp [mergeLoop, hc2]
      rw [hstep, ih m2 m2 rfl]
      simp [chunkSplit, hc, concatTexts, String.append_empty, fuseChunk]

theorem mergeConsecutive_eq_chunks (messages : List ChatMessage) (t : ℚ) :
    mergeConsecutiveMessages messages t = (groupChunks t (sortByY messages)).map fuseChunk := by
  unfold mergeConsecutiveMessages
  cases h : sortByY messages with
  | nil => rfl
  | cons first rest =>
    show mergeLoop t first first.y_position rest = _
    rw [mergeLoop_eq_chunks t rest first first rfl]
    simp [groupChunks, fuseChunk]

theorem mergeLoop_head_shape (t : ℚ) : ∀ (l : List ChatMessage) (cur : ChatMessage) (lastY : ℚ),
    ∃ txt rest2, mergeLoop t cur lastY l =
      (⟨cur.speaker, txt, cur.y_position⟩ : ChatMessage) :: rest2 := by
  intro l
  induction l with
  | nil => intro cur lastY; exact ⟨cur.text, [], rfl⟩
  | cons m2 rest ih =>
    intro cur lastY
    by_cases hc : m2.speaker = cur.speaker ∧ m2.y_position - lastY < t
    · obtain ⟨txt, r2, hr⟩ := ih { cur with text := cur.text ++ m2.text } m2.y_position
      exact ⟨txt, r2, by simpa [mergeLoop, hc] using hr⟩
    · exact ⟨cur.text, mergeLoop t m2 m2.y_position rest, by simp [mergeLoop, hc]⟩

theorem mergeLoop_props (t : ℚ) : ∀ (l : List ChatMessage) (cur : ChatMessage) (lastY : ℚ),
    List.Sorted msgLe l → (∀ x ∈ l, lastY ≤ x.y_position) → cur.y_position ≤ lastY →
    List.Sorted msgLe (mergeLoop t cur lastY l) ∧
    List.Chain' (noFuseRel t) (mergeLoop t cur lastY l) ∧
    ∀ x ∈ mergeLoop t cur lastY l, cur.y_position ≤ x.y_position := by
  intro l
  induction l with
  | nil =>
    intro cur lastY _ _ _
    refine ⟨List.sorted_singleton _, List.chain'_singleton _, ?_⟩
    intro x hx
    rw [show mergeLoop t cur lastY [] = [cur] from rfl, List.mem_singleton] at hx
    subst hx
    exact le_rfl
  | cons m2 rest ih =>
    intro cur lastY hsort hge hcur
    rw [List.sorted_cons] at hsort
    obtain ⟨hm2le, hsrest⟩ := hsort
    have hm2y : lastY ≤ m2.y_position := hge m2 (List.mem_cons_self _ _)
    by_cases hc : m2.speaker = cur.speaker ∧ m2.y_position - lastY < t
    · have h3 : ({ cur with text := cur.text ++ m2.text } : ChatMessage).y_position
          ≤ m2.y_position := le_trans hcur hm2y
      have := ih { cur with text := cur.text ++ m2.text } m2.y_position hsrest
        (fun x hx => hm2le x hx) h3
      simpa [mergeLoop, hc] using this
    · have ihres := ih m2 m2.y_position hsrest (fun x hx => hm2le x hx) le_rfl
      obtain ⟨ihs, ihc, ihm⟩ := ihres
      obtain ⟨txt, r2, hr⟩ := mergeLoop_head_shape t rest m2 m2.y_position
      have hout : mergeLoop t cur lastY (m2 :: rest) =
          cur :: mergeLoop t m2 m2.y_position rest := by
        simp [mergeLoop, hc]
      rw [hout]
      refine ⟨?_, ?_, ?_⟩
      · rw [List.sorted_cons]
        exact ⟨fun b hb => le_trans (le_trans hcur hm2y) (ihm b hb), ihs⟩
      · rw [hr] at ihc ⊢
        rw [List.chain'_cons]
        refine ⟨?_, ihc⟩
        intro hcontra
        apply hc
        refine ⟨hcontra.1, ?_⟩
        have h4 : m2.y_position - lastY ≤ m2.y_position - cur.y_position := by linarith
        have h5 : m2.y_position - cur.y_position < t := hcontra.2
        linarith
      · intro x hx
        rcases List.mem_cons.mp hx with h | h
        · subst h; exact le_rfl
        · exact le_trans (le_trans hcur hm2y) (ihm x h)

theorem mergeLoop_noFuse (t : ℚ) : ∀ (l : List ChatMessage) (cur : ChatMessage),
    List.Chain' (noFuseRel t) (cur :: l) → mergeLoop t cur cur.y_position l = cur :: l := by
  intro l
  induction l with
  | nil => intro cur _; rfl
  | cons m2 rest ih =>
    intro cur hch
    rw [List.chain'_cons] at hch
    obtain ⟨hnf, hch2⟩ := hch
    have hc : ¬(m2.speaker = cur.speaker ∧ m2.y_position - cur.y_position < t) := hnf
    simp [mergeLoop, hc, ih m2 hch2]

theorem chunkSplit_flatten (t : ℚ) : ∀ (l : List ChatMessage) (prev : ChatMessage),
    (chunkSplit t prev l).1 ++ ((chunkSplit t prev l).2.map (fun c => c.1 :: c.2)).flatten = l := by
  intro l
  induction l with
  | nil => intro prev; rfl
  | cons m2 rest ih =>
    intro prev
    by_cases hc : m2.speaker = prev.speaker ∧ m2.y_position - prev.y_position < t
    · simpa [chunkSplit, hc] using ih m2
    · simpa [chunkSplit, hc] using ih m2

theorem groupChunks_flatten (t : ℚ) (l : List ChatMessage) :
    ((groupChunks t l).map (fun c => c.1 :: c.2)).flatten = l := by
  cases l with
  | nil => rfl
  | cons m rest => simpa [groupChunks] using chunkSplit_flatten t rest m

theorem concatTexts_append (a b : List ChatMessage) :
    concatTexts (a ++ b) = concatTexts a ++ concatTexts b := by
  induction a with
  | nil =>
    show concatTexts b = "" ++ concatTexts b
    rw [String.empty_append]
  | cons m r ih =>
    show m.text ++ concatTexts (r ++ b) = (m.text ++ concatTexts r) ++ concatTexts b
    rw [ih, String.append_assoc]

theorem concatTexts_fuse (chunks : List (ChatMessage × List ChatMessage)) :
    concatTexts (chunks.map fuseChunk) =
      concatTexts ((chunks.map (fun c => c.1 :: c.2)).flatten) := by
  induction chunks with
  | nil => rfl
  | cons c r ih =>
    show (c.1.text ++ concatTexts c.2) ++ concatTexts (r.map fuseChunk) =
      concatTexts ((c.1 :: c.2) ++ ((r.map (fun c => c.1 :: c.2)).flatten))
    rw [ih, concatTexts_append]
    rfl

theorem offsetMessages_sorted : ∀ (per_image : List (List ChatMessage)) (k : Nat),
    (∀ L ∈ per_image, List.Sorted msgLe L ∧ ∀ m ∈ L, 0 ≤ m.y_position ∧ m.y_position < 100000) →
    List.Sorted msgLe (offsetMessages k per_image) ∧
    ∀ x ∈ offsetMessages k per_image, (k : ℚ) * 100000 ≤ x.y_position := by
  intro per_image
  induction per_image with
  | nil =>
    intro k _
    exact ⟨List.sorted_nil, by intro x hx; simp [offsetMessages] at hx⟩
  | cons L rest ih =>
    intro k hyp
    have hL := hyp L (List.mem_cons_self _ _)
    have hrest := fun L' hL' => hyp L' (List.mem_cons_of_mem _ hL')
    obtain ⟨hLsort, hLbound⟩ := hL
    obtain ⟨ihs, ihm⟩ := ih (k + 1) hrest
    constructor
    · rw [offsetMessages]
      refine List.pairwise_append.mpr ⟨?_, ihs, ?_⟩
      · refine List.pairwise_map.mpr ?_
        exact hLsort.imp (fun hab => by simp only [msgLe] at hab ⊢; linarith)
      · intro x hx y hy
        obtain ⟨m, hm, rfl⟩ := List.mem_map.mp hx
        have h1 := (hLbound m hm).2
        have h2 := ihm y hy
        simp only [msgLe]
        push_cast at h2 ⊢
        linarith
    · intro x hx
      rw [offsetMessages] at hx
      rcases List.mem_append.mp hx with h | h
      · obtain ⟨m, hm, rfl⟩ := List.mem_map.mp h
        have := (hLbound m hm).1
        simp only
        linarith
      · have := ihm x h
        push_cast at this ⊢
        linarith

theorem processImagesLoop_all_error (isUiTextF isTimeStampF : String → Bool) :
    ∀ (images : List (Except String ImgData)) (i : Nat) (detected : Option String),
    (∀ e ∈ images, e.isOk = false) →
    processImagesLoop isUiTextF isTimeStampF i detected images = ([], detected) := by
  intro images
  induction images with
  | nil => intro i d _; rfl
  | cons e rest ih =>
    intro i d h
    have he := h e (List.mem_cons_self _ _)
    cases e with
    | ok data => simp [Except.isOk, Except.toBool] at he
    | error msg =>
      show processImagesLoop isUiTextF isTimeStampF (i + 1) d rest = ([], d)
      exact ih (i + 1) d (fun x hx => h x (List.mem_cons_of_mem _ hx))

/-! ### Claims -/

/-- C6: on a vertically sorted message list, `_merge_consecutive_messages`
walks in increasing vertical order and fuses the next box into the current
message exactly when its speaker equals the current message's speaker and its
vertical gap from the immediately preceding box is below the threshold,
concatenating the text with no separator and keeping the first box's vertical
key; otherwise it emits the current message and starts a new one, so the
output is exactly the in-order chunk decomposition — merging never reorders
messages. -/
theorem C6_merge_walk (messages : List ChatMessage) (t : ℚ)
    (h : List.Sorted msgLe messages) :
    mergeConsecutiveMessages messages t = (groupChunks t messages).map fuseChunk := by
  have hs : sortByY messages = messages := sortByY_eq_of_sorted h
  rw [mergeConsecutive_eq_chunks, hs]

/-- Witness for C6 at a concrete sorted three-message list: the first two
fuse (gap 50 < 120), the third starts a new message (gap 240 ≥ 120). -/
theorem C6_merge_walk_witness :
    List.Sorted msgLe [⟨"我", "今天", (10 : ℚ)⟩, ⟨"我", "想你", 60⟩, ⟨"我", "晚安", 300⟩] ∧
    mergeConsecutiveMessages [⟨"我", "今天", (10 : ℚ)⟩, ⟨"我", "想你", 60⟩, ⟨"我", "晚安", 300⟩] 120 =
      (groupChunks 120 [⟨"我", "今天", (10 : ℚ)⟩, ⟨"我", "想你", 60⟩, ⟨"我", "晚安", 300⟩]).map fuseChunk :=
  ⟨by decide, C6_merge_walk _ _ (by decide)⟩

/-- C7: merging is idempotent — applying `_merge_consecutive_messages` to its
own output with the same threshold returns that output unchanged. -/
theorem C7_merge_idempotent (messages : List ChatMessage) (t : ℚ) :
    mergeConsecutiveMessages (mergeConsecutiveMessages messages t) t =
      mergeConsecutiveMessages messages t := by
  have hprops : List.Sorted msgLe (mergeConsecutiveMessages messages t) ∧
      List.Chain' (noFuseRel t) (mergeConsecutiveMessages messages t) := by
    unfold mergeConsecutiveMessages
    cases h : sortByY messages with
    | nil => exact ⟨List.sorted_nil, List.chain'_nil⟩
    | cons first rest =>
      have hs : List.Sorted msgLe (first :: rest) := h ▸ sortByY_sorted messages
      rw [List.sorted_cons] at hs
      have hp := mergeLoop_props t rest first first.y_position hs.2 hs.1 le_rfl
      exact ⟨hp.1, hp.2.1⟩
  obtain ⟨hsOut, hchOut⟩ := hprops
  cases hcase : mergeConsecutiveMessages messages t with
  | nil => rfl
  | cons c0 l0 =>
    rw [hcase] at hsOut hchOut
    unfold mergeConsecutiveMessages
    rw [sortByY_eq_of_sorted hsOut]
    show mergeLoop t c0 c0.y_position l0 = c0 :: l0
    exact mergeLoop_noFuse t l0 c0 hchOut

/-- C10: merging loses and duplicates no text — the concatenation of the
output texts equals the concatenation of the input texts in increasing
vertical-key order, and the output is a grouping of the sorted input in which
every message carries the vertical key and speaker of the first box fused
into it. -/
theorem C10_merge_text_preservation (messages : List ChatMessage) (t : ℚ) :
    concatTexts (mergeConsecutiveMessages messages t) = concatTexts (sortByY messages) ∧
    ∃ groups : List (List ChatMessage),
      (∀ g ∈ groups, g ≠ []) ∧
      groups.flatten = sortByY messages ∧
      mergeConsecutiveMessages messages t =
        groups.map (fun g => (⟨g.headI.speaker, concatTexts g, g.headI.y_position⟩ : ChatMessage)) := by
  have hmc := mergeConsecutive_eq_chunks messages t
  constructor
  · rw [hmc, concatTexts_fuse, groupChunks_flatten]
  · refine ⟨(groupChunks t (sortByY messages)).map (fun c => c.1 :: c.2), ?_,
      groupChunks_flatten t _, ?_⟩
    · intro g hg
      rw [List.mem_map] at hg
      obtain ⟨c, _, hc⟩ := hg
      rw [← hc]
      exact List.cons_ne_nil _ _
    · rw [hmc, List.map_map]
      apply List.map_congr_left
      intro c _
      rfl

/-- C9: with refinement disabled, the heuristic assembler adds
`image_position × 100000` to every vertical key and globally sorts; whenever
each per-image list is sorted with keys in `[0, 100000)` (the constant
exceeds any single image's pixel height), the sorted timeline is exactly the
per-image sequences, in within-image order, concatenated in input-position
order. -/
theorem C9_heuristic_concat (per_image : List (List ChatMessage))
    (h : ∀ L ∈ per_image, List.Sorted msgLe L ∧ ∀ m ∈ L, 0 ≤ m.y_position ∧ m.y_position < 100000) :
    assembleHeuristic per_image = offsetMessages 0 per_image := by
  unfold assembleHeuristic
  exact sortByY_eq_of_sorted (offsetMessages_sorted per_image 0 h).1

/-- Witness for C9 on two one-message images. -/
theorem C9_heuristic_concat_witness :
    (∀ L ∈ [[(⟨"我", "你好", (10 : ℚ)⟩ : ChatMessage)], [⟨"对方", "在吗", 20⟩]],
      List.Sorted msgLe L ∧ ∀ m ∈ L, 0 ≤ m.y_position ∧ m.y_position < 100000) ∧
    assembleHeuristic [[(⟨"我", "你好", (10 : ℚ)⟩ : ChatMessage)], [⟨"对方", "在吗", 20⟩]] =
      offsetMessages 0 [[(⟨"我", "你好", (10 : ℚ)⟩ : ChatMessage)], [⟨"对方", "在吗", 20⟩]] :=
  ⟨by decide, C9_heuristic_concat _ (by decide)⟩

/-- C2 counterexample: with resolved partner name `小明`, a partner-authored
line is rendered with the literal `对方`, not with the resolved name — the
transcript `小明：在吗` claimed by the spec is never produced. -/
theorem C2_counterexample :
    formatConversation [⟨"小明", "在吗", 100⟩] (some "小明") = "对方：在吗" ∧
    formatConversation [⟨"小明", "在吗", 100⟩] (some "小明") ≠ "小明：在吗" := by
  constructor <;> decide

/-- C2 (amended): in the final formatted transcript, every message is one
`"{speaker}：{text}"` line where self-authored messages carry `我` and, when a
partner name was resolved (truthy chat name), partner-authored messages carry
the LITERAL `对方` — not the resolved name. -/
theorem C2_partner_label_literal (messages : List ChatMessage) (chat_name : Option String)
    (h : optTruthy chat_name = true) :
    formatConversation messages chat_name =
      String.intercalate "\n" (messages.map (fun msg =>
        (if msg.speaker = "我" then "我" else "对方") ++ "：" ++ msg.text)) := by
  unfold formatConversation
  congr 1
  apply List.map_congr_left
  intro msg _
  by_cases hm : msg.speaker = "我" <;> simp [hm, h]

/-- Witness for C2 (amended) on a two-message transcript. -/
theorem C2_partner_label_literal_witness :
    optTruthy (some "小明") = true ∧
    formatConversation [⟨"小明", "在吗", 100⟩, ⟨"我", "你好", 200⟩] (some "小明") =
      String.intercalate "\n" (([⟨"小明", "在吗", 100⟩, ⟨"我", "你好", 200⟩] :
          List ChatMessage).map (fun msg =>
        (if msg.speaker = "我" then "我" else "对方") ++ "：" ++ msg.text)) :=
  ⟨by decide, C2_partner_label_literal _ _ (by decide)⟩

/-- C5 counterexample: a batch whose only image fails to decode yields
`("", none)` — in both modes — which is exactly the "no content recognized"
outcome that a decodable image with zero text boxes also yields; no distinct
explicit failure is surfaced. -/
theorem C5_counterexample :
    processMultipleImagesAsync (fun _ => false) (fun _ => false) llmFail
      [Except.error "cannot identify image file"] true = ("", none) ∧
    processMultipleImagesAsync (fun _ => false) (fun _ => false) llmFail
      [Except.error "cannot identify image file"] false = ("", none) ∧
    processMultipleImagesAsync (fun _ => false) (fun _ => false) llmFail
      [Except.ok noBoxData] false = ("", none) := by
  refine ⟨?_, ?_, ?_⟩ <;> decide

/-- C5 (amended): when every supplied image fails to decode,
`process_multiple_images_async` returns the normal non-error outcome
`("", none)` — indistinguishable from the decode-but-no-text outcome — rather
than surfacing a single explicit failure. -/
theorem C5_all_malformed_normal_outcome (isUiTextF isTimeStampF : String → Bool)
    (llm : LLMCollab) (images : List (Except String ImgData)) (use_llm_refine : Bool)
    (h : ∀ e ∈ images, e.isOk = false) :
    processMultipleImagesAsync isUiTextF isTimeStampF llm images use_llm_refine = ("", none) := by
  unfold processMultipleImagesAsync
  rw [processImagesLoop_all_error isUiTextF isTimeStampF images 0 none h]
  rfl

/-- Witness for C5 (amended) on a two-image all-malformed batch. -/
theorem C5_all_malformed_normal_outcome_witness :
    (∀ e ∈ ([Except.error "bad jpeg", Except.error "bad png"] :
        List (Except String ImgData)), e.isOk = false) ∧
    processMultipleImagesAsync (fun _ => false) (fun _ => false) llmFail
      [Except.error "bad jpeg", Except.error "bad png"] false = ("", none) :=
  ⟨by decide, C5_all_malformed_normal_outcome _ _ _ _ _ (by decide)⟩

/-- C8 counterexample: a detection with nonempty text but missing confidence
is not defaulted to 0 — `Confidence / 100.0` raises, aborting the whole
parse, so the following well-formed detection is lost as well. -/
theorem C8_counterexample :
    parseTencentOcrResult ⟨some [⟨some "你好", none, some [(0, 0), (10, 0), (10, 10), (0, 10)], none⟩,
        ⟨some "在吗", some 95, some [(0, 20), (10, 20), (10, 30), (0, 30)], none⟩]⟩ =
      Except.error "TypeError: unsupported operand type for /: NoneType and float" := by
  rfl

/-- C8 (amended): the adapter drops any detection with empty text and skips a
detection with no usable polygon, continuing with the rest; but a missing
confidence is NOT defaulted to 0 — it raises an error that aborts the
processing of all remaining detections. -/
theorem C8_parse_contract :
    (∀ (d : Detection) (rest : List Detection), textFalsy d.DetectedText = true →
      parseDetections (d :: rest) = parseDetections rest) ∧
    (∀ (d : Detection) (rest : List Detection) (c : ℚ), textFalsy d.DetectedText = false →
      d.Confidence = some c → (d.Polygon = none ∨ d.Polygon = some []) → d.ItemPolygon = none →
      parseDetections (d :: rest) = parseDetections rest) ∧
    (∀ (d : Detection) (rest : List Detection), textFalsy d.DetectedText = false →
      d.Confidence = none →
      parseDetections (d :: rest) =
        Except.error "TypeError: unsupported operand type for /: NoneType and float") := by
  refine ⟨?_, ?_, ?_⟩
  · intro d rest h
    simp [parseDetections, h]
  · intro d rest c ht hc hp hi
    rcases hp with hp | hp <;> simp [parseDetections, ht, hc, hp, hi]
  · intro d rest ht hc
    simp [parseDetections, ht, hc]

/-- Witness for C8 (amended): one whitespace-text detection is dropped, one
geometry-free detection is skipped, one confidence-free detection aborts. -/
theorem C8_parse_contract_witness :
    (textFalsy (some "  ") = true ∧
      parseDetections [⟨some "  ", some 90, some [(0, 0)], none⟩] = parseDetections []) ∧
    (textFalsy (some "你好") = false ∧
      parseDetections [⟨some "你好", some 90, some [], none⟩] = parseDetections []) ∧
    (textFalsy (some "你好") = false ∧
      parseDetections [⟨some "你好", none, some [(0, 0)], none⟩] =
        Except.error "TypeError: unsupported operand type for /: NoneType and float") :=
  ⟨⟨by decide, C8_parse_contract.1 ⟨some "  ", some 90, some [(0, 0)], none⟩ [] (by decide)⟩,
   ⟨by decide, C8_parse_contract.2.1 ⟨some "你好", some 90, some [], none⟩ [] 90
      (by decide) rfl (Or.inr rfl) rfl⟩,
   ⟨by decide, C8_parse_contract.2.2 ⟨some "你好", none, some [(0, 0)], none⟩ [] (by decide) rfl⟩⟩

theorem voteFold_counts (img : PImage) : ∀ (ps : List (Int × Int × Nat × Nat)) (st : VoteState),
    (ps.foldl (voteStep img) st).green_count =
      st.green_count + (ps.filter (sampleIsGreen img)).length ∧
    (ps.foldl (voteStep img) st).white_count =
      st.white_count + (ps.filter (sampleIsWhite img)).length := by
  intro ps
  induction ps with
  | nil => intro st; simp
  | cons p rest ih =>
    intro st
    rcases hs : sampleColor img p.1 p.2.1 p.2.2.1 p.2.2.2 with _ | ⟨r, g, b, hue, sat, val⟩
    · have h1 : voteStep img st p = st := by simp [voteStep, hs]
      have h2 : sampleIsGreen img p = false := by simp [sampleIsGreen, hs]
      have h3 : sampleIsWhite img p = false := by simp [sampleIsWhite, hs]
      constructor
      · rw [List.foldl_cons, h1, (ih st).1, List.filter_cons, h2]
        simp
      · rw [List.foldl_cons, h1, (ih st).2, List.filter_cons, h3]
        simp
    · by_cases hg : is_green hue sat val
      · have h1 : voteStep img st p =
            ⟨st.green_count + 1, st.white_count, (r, g, b)⟩ := by simp [voteStep, hs, hg]
        have h2 : sampleIsGreen img p = true := by simp [sampleIsGreen, hs, hg]
        have h3 : sampleIsWhite img p = false := by simp [sampleIsWhite, hs, hg]
        constructor
        · rw [List.foldl_cons, h1, (ih _).1, List.filter_cons, h2]
          simp
          omega
        · rw [List.foldl_cons, h1, (ih _).2, List.filter_cons, h3]
          simp
      · by_cases hw : is_white sat val
        · have h1 : voteStep img st p =
              ⟨st.green_count, st.white_count + 1, (r, g, b)⟩ := by simp [voteStep, hs, hg, hw]
          have h2 : sampleIsGreen img p = false := by simp [sampleIsGreen, hs, hg]
          have h3 : sampleIsWhite img p = true := by simp [sampleIsWhite, hs, hg, hw]
          constructor
          · rw [List.foldl_cons, h1, (ih _).1, List.filter_cons, h2]
            simp
          · rw [List.foldl_cons, h1, (ih _).2, List.filter_cons, h3]
            simp
            omega
        · have h1 : voteStep img st p =
              ⟨st.green_count, st.white_count, (r, g, b)⟩ := by simp [voteStep, hs, hg, hw]
          have h2 : sampleIsGreen img p = false := by simp [sampleIsGreen, hs, hg]
          have h3 : sampleIsWhite img p = false := by simp [sampleIsWhite, hs, hg, hw]
          constructor
          · rw [List.foldl_cons, h1, (ih _).1, List.filter_cons, h2]
            simp
          · rw [List.foldl_cons, h1, (ih _).2, List.filter_cons, h3]
            simp

/-- C3 counterexample: on `mixImg`, exactly one of the three samples (the one
above the box) is green and none is white — green is NOT a strict majority of
the (up to 3) samples — yet `_get_bubble_color` classifies the box as Self. -/
theorem C3_counterexample :
    (getBubbleColor mixImg cbox).1 = "我" ∧
    greenVotes mixImg cbox = 1 ∧
    whiteVotes mixImg cbox = 0 ∧
    (bubbleSamplePoints cbox).length = 3 := by
  refine ⟨?_, ?_, ?_, ?_⟩ <;> decide

/-- C3 (amended): the color tier classifies Self exactly when strictly MORE
samples are green than white, Partner exactly when strictly more are white
than green, and returns undetermined (empty speaker) when the green and white
vote counts are equal (including the no-signal case) — the majority is over
the green/white votes, not over the number of samples. -/
theorem C3_color_vote (img : PImage) (box : TextBox) :
    (getBubbleColor img box).1 =
      if whiteVotes img box < greenVotes img box then "我"
      else if greenVotes img box < whiteVotes img box then "对方"
      else "" := by
  obtain ⟨hg, hw⟩ := voteFold_counts img (bubbleSamplePoints box) ⟨0, 0, (0, 0, 0)⟩
  simp only [Nat.zero_add] at hg hw
  unfold getBubbleColor
  simp only [hg, hw, greenVotes, whiteVotes]
  split_ifs <;> first | rfl | omega

theorem classifyByColor_undetermined (img : PImage) (box : TextBox) (cn : Option String)
    (h : (getBubbleColor img box).1 = "") : (classifySpeakerByColor img box cn).1 = "" := by
  unfold classifySpeakerByColor
  simp [h]

/-- C4: for a box that passes the noise filters and whose color tier is
undetermined, the position fallback of `extract_chat_from_image` classifies
Self when the relative right edge exceeds 0.75 and the left edge exceeds
0.35; Partner when the left edge is below 0.25 and the right edge below 0.65;
for wide boxes (right − left > 0.3) the relaxed left-edge rule alone decides
(left < 0.20 Partner, left > 0.30 Self); and a box satisfying none of the
rules is dropped, contributing no message. -/
theorem C4_position_fallback (isUiTextF isTimeStampF : String → Bool) (data : ImgData)
    (box : TextBox)
    (hbox : data.boxes = [box])
    (hsb : isInStatusBar box data.height = false)
    (hia : isInInputArea box data.height = false)
    (hts : isTimeStampF box.text = false)
    (hui : isUiTextF box.text = false)
    (hname : extractChatName isUiTextF data.boxes data.width data.height = none)
    (hcolor : (getBubbleColor data.image box).1 = "") :
    (extractChatFromImage isUiTextF isTimeStampF data none).1 =
      (if box.right_x / data.width > 0.75 ∧ box.left_x / data.width > 0.35 then
        [⟨"我", pyStrip box.text, box.center_y⟩]
      else if box.left_x / data.width < 0.25 ∧ box.right_x / data.width < 0.65 then
        [⟨"对方", pyStrip box.text, box.center_y⟩]
      else if box.right_x / data.width - box.left_x / data.width > 0.3 ∧
          box.left_x / data.width < 0.20 then
        [⟨"对方", pyStrip box.text, box.center_y⟩]
      else if box.right_x / data.width - box.left_x / data.width > 0.3 ∧
          box.left_x / data.width > 0.30 then
        [⟨"我", pyStrip box.text, box.center_y⟩]
      else []) := by
  have hc0 : (classifySpeakerByColor data.image box none).1 = "" :=
    classifyByColor_undetermined _ _ _ hcolor
  rw [hbox] at hname
  unfold extractChatFromImage
  rw [hbox, hname]
  simp only [List.isEmpty_cons, Bool.false_eq_true, if_false, List.filterMap, hsb, hia, hts, hui,
    hc0, pyOrOpt, optTruthy, Bool.false_eq_true, if_neg]
  unfold classifySpeaker
  simp only [pyOrStr]
  split_ifs with h1 h2 h3 h4 h5 <;>
    simp_all [sortByY, List.insertionSort, msgLe, (by decide : ("".isEmpty) = true),
      (by decide : ("我".isEmpty) = false), (by decide : ("对方".isEmpty) = false)]

/-- Witness for C4: on an all-black image (color tier undetermined) a box
with relative edges 0.4 and 0.8 is classified Self by the first position
rule. -/
theorem C4_position_fallback_witness :
    (c4data.boxes = [c4box] ∧
      isInStatusBar c4box c4data.height = false ∧
      isInInputArea c4box c4data.height = false ∧
      extractChatName (fun _ => false) c4data.boxes c4data.width c4data.height = none ∧
      (getBubbleColor c4data.image c4box).1 = "") ∧
    (extractChatFromImage (fun _ => false) (fun _ => false) c4data none).1 =
      [⟨"我", "你好", 500⟩] :=
  ⟨⟨rfl, by decide, by decide, by decide, by decide⟩,
    (C4_position_fallback (fun _ => false) (fun _ => false) c4data c4box rfl
      (by decide) (by decide) rfl rfl (by decide) (by decide)).trans (by decide)⟩

/-- C1 (code bug): with `use_llm_refine = true` and the refinement
collaborator raising any error, `process_multiple_images_async` returns the
raw serialized dump of `_format_raw_ocr_for_llm` — not the heuristic-ordering
transcript it produces for the same input with refinement disabled. The
fallback branch after the outer `except` (comments: 大模型失败 → 使用原始合并逻辑)
is unreachable because `_refine_conversation_with_llm` catches every error
itself and returns the raw dump. -/
theorem C1_refine_error_returns_raw_dump :
    processMultipleImagesAsync (fun _ => false) (fun _ => false) llmFail c1imgs true =
      ("=== 图片 1 ===\n原始识别文本（共1个）:\n  1. 你好\n\n提取的对话消息（共1条）:\n  [我] 你好\n",
        none) ∧
    processMultipleImagesAsync (fun _ => false) (fun _ => false) llmFail c1imgs false =
      ("我：你好", none) ∧
    ("=== 图片 1 ===\n原始识别文本（共1个）:\n  1. 你好\n\n提取的对话消息（共1条）:\n  [我] 你好\n"
      : String) ≠ "我：你好" := by
  refine ⟨?_, ?_, ?_⟩ <;> decide
